import Mathlib

/-!
Verification development for `music_organizer.py` (vancan1ty/music-organizer).

The Python program is shallowly embedded: pure string processing becomes
functions on `List Char` / `String`, the stateful `organize_file` /
`copy_album_art` methods become explicit state-passing functions over a
finite-map model of the filesystem, and the external collaborators
(mutagen tag reader, AcoustID/MusicBrainz network calls, `shutil`
primitives that may raise) are parameters of an environment record.
-/

namespace MusicOrganizer

/-! ## `sanitize_filename` (music_organizer.py, lines 84-103) -/

/-- Characters deleted by `re.sub(r'[<>:"/\\|?*]', '', name)` (line 95). -/
def invalidChar (c : Char) : Bool :=
  ['<', '>', ':', '"', '/', '\\', '|', '?', '*'].contains c

/-- Python regex `\s` on `str`: ASCII whitespace together with the Unicode
whitespace code points (used by `re.sub(r'\s+', ' ', name)`, line 97). -/
def pyIsSpace (c : Char) : Bool :=
  [' ', '\t', '\n', '\r', Char.ofNat 0x0B, Char.ofNat 0x0C,
   Char.ofNat 0x1C, Char.ofNat 0x1D, Char.ofNat 0x1E, Char.ofNat 0x1F,
   Char.ofNat 0x85, Char.ofNat 0xA0, Char.ofNat 0x1680,
   Char.ofNat 0x2000, Char.ofNat 0x2001, Char.ofNat 0x2002, Char.ofNat 0x2003,
   Char.ofNat 0x2004, Char.ofNat 0x2005, Char.ofNat 0x2006, Char.ofNat 0x2007,
   Char.ofNat 0x2008, Char.ofNat 0x2009, Char.ofNat 0x200A,
   Char.ofNat 0x2028, Char.ofNat 0x2029, Char.ofNat 0x202F,
   Char.ofNat 0x205F, Char.ofNat 0x3000].contains c

/-- The two characters stripped by `name.strip('. ')` (line 99). -/
def isStripChar (c : Char) : Bool := c == '.' || c == ' '

/-- `re.sub(r'[<>:"/\\|?*]', '', name)` (line 95). -/
def removeInvalid (l : List Char) : List Char := l.filter (fun c => !invalidChar c)

/-- Worker for `re.sub(r'\s+', ' ', name)` (line 97): every maximal run of
whitespace becomes a single ASCII space.  The Bool argument records whether
the previously consumed character was whitespace (i.e. whether we are inside
a run that has already emitted its space). -/
def collapseAux : Bool → List Char → List Char
  | _, [] => []
  | prevSpace, c :: rest =>
    if pyIsSpace c then
      if prevSpace then collapseAux true rest
      else ' ' :: collapseAux true rest
    else
      c :: collapseAux false rest

/-- `re.sub(r'\s+', ' ', name)` (line 97). -/
def collapseWs (l : List Char) : List Char := collapseAux false l

/-- The right half of `name.strip('. ')`: remove the maximal trailing run of
`'.'` / `' '` characters. -/
def trimRight : List Char → List Char
  | [] => []
  | c :: rest =>
    let r := trimRight rest
    if r = [] ∧ isStripChar c then [] else c :: r

/-- The left half of `name.strip('. ')`. -/
def trimLeft (l : List Char) : List Char := l.dropWhile isStripChar

/-- `name.strip('. ')` (line 99). -/
def pyStrip (l : List Char) : List Char := trimRight (trimLeft l)

/-- `if len(name) > 200: name = name[:200]` (lines 101-102). -/
def truncate200 (l : List Char) : List Char :=
  if 200 < l.length then l.take 200 else l

/-- `return name if name else 'Unknown'` (line 103). -/
def orUnknown (l : List Char) : List Char :=
  if l = [] then "Unknown".toList else l

/-- `sanitize_filename` (lines 84-103), acting on the character list of the
input: delete invalid characters, collapse whitespace runs, strip leading and
trailing dots/spaces, truncate to 200 characters, and fall back to
`"Unknown"` when the result is empty. -/
def sanitizeList (l : List Char) : List Char :=
  orUnknown (truncate200 (pyStrip (collapseWs (removeInvalid l))))

/-- `MusicOrganizer.sanitize_filename` (lines 84-103). -/
def sanitize_filename (s : String) : String := String.mk (sanitizeList s.toList)

example : sanitize_filename "" = "Unknown" := by decide
example : sanitize_filename "  a   b  " = "a b" := by decide
example : sanitize_filename "A/B" = "AB" := by decide
example : sanitize_filename "..x.." = "x" := by decide

/-! ### Structural lemmas about the sanitizer -/

/-- No two adjacent characters of the list are both whitespace. -/
def noSpaceRuns : List Char → Bool
  | [] => true
  | [_] => true
  | a :: b :: rest => !(pyIsSpace a && pyIsSpace b) && noSpaceRuns (b :: rest)

theorem noSpaceRuns_tail {c : Char} {l : List Char}
    (h : noSpaceRuns (c :: l) = true) : noSpaceRuns l = true := by
  cases l with
  | nil => rfl
  | cons b rest =>
    simp only [noSpaceRuns, Bool.and_eq_true] at h
    exact h.2

theorem noSpaceRuns_append_left {l t : List Char}
    (h : noSpaceRuns (l ++ t) = true) : noSpaceRuns l = true := by
  induction l with
  | nil => rfl
  | cons a l ih =>
    cases l with
    | nil => rfl
    | cons b rest =>
      simp only [List.cons_append, noSpaceRuns, Bool.and_eq_true] at h ⊢
      exact ⟨h.1, ih h.2⟩

theorem noSpaceRuns_append_right {l t : List Char}
    (h : noSpaceRuns (l ++ t) = true) : noSpaceRuns t = true := by
  induction l with
  | nil => exact h
  | cons a l ih => exact ih (noSpaceRuns_tail h)

/-- The output of `collapseAux true` never starts with a whitespace character. -/
theorem collapseAux_true_head :
    ∀ (l : List Char) (c : Char), (collapseAux true l).head? = some c →
      pyIsSpace c = false := by
  intro l
  induction l with
  | nil => intro c h; simp [collapseAux] at h
  | cons a rest ih =>
    intro c h
    by_cases ha : pyIsSpace a = true
    · simp only [collapseAux, ha, if_pos, if_true] at h
      exact ih c h
    · simp only [collapseAux, ha, if_neg, Bool.not_eq_true] at h
      simp only [List.head?_cons, Option.some.injEq] at h
      subst h
      simpa using ha

/-- The whitespace-collapse output has no two adjacent whitespace characters. -/
theorem collapseAux_noSpaceRuns :
    ∀ (l : List Char) (b : Bool), noSpaceRuns (collapseAux b l) = true := by
  intro l
  induction l with
  | nil => intro b; rfl
  | cons a rest ih =>
    intro b
    by_cases ha : pyIsSpace a = true
    · cases b with
      | true =>
        simp only [collapseAux, ha, if_pos, if_true]
        exact ih true
      | false =>
        simp only [collapseAux, ha, if_pos, if_neg, Bool.false_eq_true,
          not_false_eq_true]
        cases hrec : collapseAux true rest with
        | nil => rfl
        | cons c rest' =>
          have hc : pyIsSpace c = false := by
            apply collapseAux_true_head rest
            rw [hrec]; rfl
          have := ih true
          rw [hrec] at this
          simp only [noSpaceRuns, Bool.and_eq_true, Bool.not_eq_true',
            Bool.and_eq_false_iff]
          exact ⟨Or.inr hc, this⟩
    · simp only [collapseAux, ha, if_neg, Bool.not_eq_true]
      cases hrec : collapseAux false rest with
      | nil => rfl
      | cons c rest' =>
        have := ih false
        rw [hrec] at this
        simp only [noSpaceRuns, Bool.and_eq_true, Bool.not_eq_true',
          Bool.and_eq_false_iff]
        exact ⟨Or.inl (by simpa using ha), this⟩

/-- Every character of the collapse output is either the ASCII space it
inserted, or a non-whitespace character of the input. -/
theorem collapseAux_mem {c : Char} :
    ∀ (l : List Char) (b : Bool), c ∈ collapseAux b l →
      c = ' ' ∨ (c ∈ l ∧ pyIsSpace c = false) := by
  intro l
  induction l with
  | nil => intro b h; simp [collapseAux] at h
  | cons a rest ih =>
    intro b h
    by_cases ha : pyIsSpace a = true
    · cases b with
      | true =>
        simp only [collapseAux, ha, if_pos, if_true] at h
        rcases ih true h with h' | h'
        · exact Or.inl h'
        · exact Or.inr ⟨List.mem_cons_of_mem _ h'.1, h'.2⟩
      | false =>
        simp only [collapseAux, ha, if_pos, if_neg, Bool.false_eq_true,
          not_false_eq_true, List.mem_cons] at h
        rcases h with h | h
        · exact Or.inl h
        · rcases ih true h with h' | h'
          · exact Or.inl h'
          · exact Or.inr ⟨List.mem_cons_of_mem _ h'.1, h'.2⟩
    · simp only [collapseAux, ha, if_neg, Bool.not_eq_true, List.mem_cons] at h
      rcases h with h | h
      · subst h
        exact Or.inr ⟨List.mem_cons_self _ _, by simpa using ha⟩
      · rcases ih false h with h' | h'
        · exact Or.inl h'
        · exact Or.inr ⟨List.mem_cons_of_mem _ h'.1, h'.2⟩

/-- Collapsing is the identity on a list whose whitespace characters are all
`' '`, which has no adjacent whitespace pair, and (when the previous character
was whitespace) which does not start with whitespace. -/
theorem collapseAux_eq_self :
    ∀ (l : List Char) (b : Bool),
      (∀ c ∈ l, pyIsSpace c = true → c = ' ') →
      noSpaceRuns l = true →
      (b = true → ∀ c, l.head? = some c → pyIsSpace c = false) →
      collapseAux b l = l := by
  intro l
  induction l with
  | nil => intro b _ _ _; rfl
  | cons a rest ih =>
    intro b hmem hnsr hhead
    by_cases ha : pyIsSpace a = true
    · cases b with
      | true =>
        exact absurd ha (by simp [hhead rfl a rfl])
      | false =>
        have haSp : a = ' ' := hmem a (List.mem_cons_self _ _) ha
        simp only [collapseAux, ha, if_pos, if_neg, Bool.false_eq_true,
          not_false_eq_true]
        rw [haSp]
        congr 1
        apply ih true
        · intro c hc; exact hmem c (List.mem_cons_of_mem _ hc)
        · exact noSpaceRuns_tail hnsr
        · intro _ c hc
          cases rest with
          | nil => simp at hc
          | cons r rest' =>
            simp only [List.head?_cons, Option.some.injEq] at hc
            subst hc
            simp only [noSpaceRuns, Bool.and_eq_true, Bool.not_eq_true',
              Bool.and_eq_false_iff] at hnsr
            rcases hnsr.1 with h | h
            · exact absurd ha (by simp [h])
            · exact h
    · simp only [collapseAux, ha, if_neg, Bool.not_eq_true]
      congr 1
      apply ih false
      · intro c hc; exact hmem c (List.mem_cons_of_mem _ hc)
      · exact noSpaceRuns_tail hnsr
      · intro h; exact absurd h (by simp)

/-- `trimRight l` is a prefix of `l`. -/
theorem trimRight_decomp : ∀ l : List Char, ∃ t, trimRight l ++ t = l := by
  intro l
  induction l with
  | nil => exact ⟨[], rfl⟩
  | cons c rest ih =>
    by_cases h : trimRight rest = [] ∧ isStripChar c = true
    · exact ⟨c :: rest, by simp [trimRight, h]⟩
    · obtain ⟨t, ht⟩ := ih
      refine ⟨t, ?_⟩
      simp only [trimRight, if_neg h, List.cons_append, ht]

theorem trimRight_head {l : List Char} (h : trimRight l ≠ []) :
    (trimRight l).head? = l.head? := by
  cases l with
  | nil => rfl
  | cons c rest =>
    by_cases hc : trimRight rest = [] ∧ isStripChar c = true
    · exact absurd (by simp [trimRight, hc]) h
    · simp [trimRight, if_neg hc]

/-- Right-trimming is the identity when the last element is not a strip
character. -/
theorem trimRight_eq_self :
    ∀ l : List Char, (∀ c, l.getLast? = some c → isStripChar c = false) →
      trimRight l = l := by
  intro l
  induction l with
  | nil => intro _; rfl
  | cons c rest ih =>
    intro h
    cases rest with
    | nil =>
      have := h c (by rfl)
      simp [trimRight, this]
    | cons r rest' =>
      have hrec : trimRight (r :: rest') = r :: rest' := by
        apply ih
        intro d hd
        apply h
        rw [List.getLast?_cons_cons]
        exact hd
      have hne : ¬(trimRight (r :: rest') = [] ∧ isStripChar c = true) := by
        rw [hrec]; simp
      calc trimRight (c :: r :: rest')
          = if trimRight (r :: rest') = [] ∧ isStripChar c = true then []
            else c :: trimRight (r :: rest') := rfl
        _ = c :: trimRight (r :: rest') := by rw [if_neg hne]
        _ = c :: r :: rest' := by rw [hrec]

/-- The elements trimmed output come from the input. -/
theorem mem_of_mem_trimRight {c : Char} {l : List Char}
    (h : c ∈ trimRight l) : c ∈ l := by
  obtain ⟨t, ht⟩ := trimRight_decomp l
  rw [← ht]
  exact List.mem_append_left _ h

theorem head?_dropWhile_not {p : Char → Bool} :
    ∀ {l : List Char} {c : Char}, (l.dropWhile p).head? = some c → p c = false := by
  intro l
  induction l with
  | nil => intro c h; simp [List.dropWhile] at h
  | cons a rest ih =>
    intro c h
    by_cases ha : p a = true
    · rw [List.dropWhile_cons_of_pos ha] at h
      exact ih h
    · rw [List.dropWhile_cons_of_neg ha] at h
      simp only [List.head?_cons, Option.some.injEq] at h
      subst h
      simpa using ha

theorem dropWhile_eq_self_of_head {p : Char → Bool} {l : List Char}
    (h : ∀ c, l.head? = some c → p c = false) : l.dropWhile p = l := by
  cases l with
  | nil => rfl
  | cons a rest => exact List.dropWhile_cons_of_neg (by simp [h a rfl])

theorem head?_take {l : List Char} {n : Nat} (hn : 0 < n) :
    (l.take n).head? = l.head? := by
  cases l with
  | nil => simp
  | cons a rest =>
    cases n with
    | zero => exact absurd hn (by simp)
    | succ m => simp [List.take]

theorem truncate200_subset {c : Char} {l : List Char}
    (h : c ∈ truncate200 l) : c ∈ l := by
  unfold truncate200 at h
  by_cases hlen : 200 < l.length
  · rw [if_pos hlen] at h; exact (List.take_subset _ _) h
  · rwa [if_neg hlen] at h

theorem pyStrip_subset {c : Char} {l : List Char}
    (h : c ∈ pyStrip l) : c ∈ l := by
  have h1 : c ∈ trimLeft l := mem_of_mem_trimRight h
  have h2 := List.takeWhile_append_dropWhile (p := isStripChar) (l := l)
  rw [← h2]
  exact List.mem_append_right _ h1

theorem noSpaceRuns_pyStrip {l : List Char}
    (h : noSpaceRuns l = true) : noSpaceRuns (pyStrip l) = true := by
  have hL : noSpaceRuns (trimLeft l) = true := by
    apply noSpaceRuns_append_right (l := l.takeWhile isStripChar)
    rw [trimLeft]
    rwa [List.takeWhile_append_dropWhile]
  obtain ⟨t, ht⟩ := trimRight_decomp (trimLeft l)
  apply noSpaceRuns_append_left (t := t)
  rw [pyStrip]
  rwa [ht]

theorem noSpaceRuns_truncate200 {l : List Char}
    (h : noSpaceRuns l = true) : noSpaceRuns (truncate200 l) = true := by
  unfold truncate200
  by_cases hlen : 200 < l.length
  · rw [if_pos hlen]
    apply noSpaceRuns_append_left (t := l.drop 200)
    rwa [List.take_append_drop]
  · rwa [if_neg hlen]

theorem truncate200_head? (l : List Char) :
    (truncate200 l).head? = l.head? := by
  unfold truncate200
  by_cases hlen : 200 < l.length
  · rw [if_pos hlen]; exact head?_take (by omega)
  · rw [if_neg hlen]

theorem pyStrip_head {l : List Char} {c : Char}
    (h : (pyStrip l).head? = some c) : isStripChar c = false := by
  have hne : trimRight (trimLeft l) ≠ [] := by
    intro h0
    rw [pyStrip, h0] at h
    cases h
  rw [pyStrip, trimRight_head hne] at h
  exact head?_dropWhile_not h

theorem truncate200_length (l : List Char) : (truncate200 l).length ≤ 200 := by
  unfold truncate200
  by_cases hlen : 200 < l.length
  · rw [if_pos hlen]; simp
  · rw [if_neg hlen]; omega

/-- The structural properties every `sanitizeList` output enjoys: nonempty, no
invalid characters, all whitespace is a plain space, no adjacent whitespace,
the head is not a dot or space, and at most 200 characters. -/
theorem sanitizeList_props (l : List Char) :
    sanitizeList l ≠ [] ∧
    (∀ c ∈ sanitizeList l, invalidChar c = false) ∧
    (∀ c ∈ sanitizeList l, pyIsSpace c = true → c = ' ') ∧
    noSpaceRuns (sanitizeList l) = true ∧
    (∀ c, (sanitizeList l).head? = some c → isStripChar c = false) ∧
    (sanitizeList l).length ≤ 200 := by
  unfold sanitizeList orUnknown
  by_cases hemp : truncate200 (pyStrip (collapseWs (removeInvalid l))) = []
  · rw [if_pos hemp]
    refine ⟨by decide, by decide, by decide, by decide, ?_, by decide⟩
    intro c hc
    have : c = 'U' := by
      rw [show ("Unknown".toList).head? = some 'U' from rfl] at hc
      exact (Option.some.injEq _ _).mp hc.symm
    subst this
    decide
  · rw [if_neg hemp]
    have hmemColl : ∀ c ∈ truncate200 (pyStrip (collapseWs (removeInvalid l))),
        c = ' ' ∨ (c ∈ removeInvalid l ∧ pyIsSpace c = false) := by
      intro c hc
      exact collapseAux_mem _ false (pyStrip_subset (truncate200_subset hc))
    refine ⟨hemp, ?_, ?_, ?_, ?_, truncate200_length _⟩
    · intro c hc
      rcases hmemColl c hc with h | h
      · subst h; decide
      · have := List.of_mem_filter h.1
        simpa using this
    · intro c hc hsp
      rcases hmemColl c hc with h | h
      · exact h
      · rw [h.2] at hsp; cases hsp
    · exact noSpaceRuns_truncate200
        (noSpaceRuns_pyStrip (collapseAux_noSpaceRuns _ false))
    · intro c hc
      rw [truncate200_head?] at hc
      exact pyStrip_head hc

/-- A second sanitizer pass is the identity provided the first pass's output
does not end in a dot or space (which only the 200-character truncation can
produce). -/
theorem sanitizeList_idem (l : List Char)
    (h : ∀ c, (sanitizeList l).getLast? = some c → isStripChar c = false) :
    sanitizeList (sanitizeList l) = sanitizeList l := by
  obtain ⟨hne, hinv, hsp, hnsr, hhead, hlen⟩ := sanitizeList_props l
  have h1 : removeInvalid (sanitizeList l) = sanitizeList l := by
    rw [removeInvalid, List.filter_eq_self]
    intro a ha
    simp [hinv a ha]
  have h2 : collapseWs (sanitizeList l) = sanitizeList l :=
    collapseAux_eq_self (sanitizeList l) false hsp hnsr (fun hb => nomatch hb)
  have h3 : trimLeft (sanitizeList l) = sanitizeList l :=
    dropWhile_eq_self_of_head hhead
  have h4 : trimRight (sanitizeList l) = sanitizeList l :=
    trimRight_eq_self (sanitizeList l) h
  have h5 : truncate200 (sanitizeList l) = sanitizeList l := by
    unfold truncate200
    rw [if_neg (by omega)]
  show orUnknown (truncate200 (pyStrip (collapseWs (removeInvalid (sanitizeList l)))))
      = sanitizeList l
  rw [h1, h2, pyStrip, h3, h4, h5, orUnknown, if_neg hne]

/-- A 201-character input (no invalid characters, already stripped) whose
200th character is a space: truncation leaves a trailing space that a second
sanitizer pass strips. -/
def badSanitizeInput : String := String.mk (List.replicate 199 'a' ++ [' ', 'b'])

set_option maxRecDepth 20000 in
/-- C3 counterexample: `sanitize_filename` is not idempotent.  On a 201
character input whose truncation point falls just after a space, the first
pass returns a 200-character string ending in a space and the second pass
strips that space. -/
theorem sanitize_filename_not_idempotent :
    sanitize_filename (sanitize_filename badSanitizeInput) ≠
      sanitize_filename badSanitizeInput := by decide

/-- C3 (amended): `sanitize_filename` never returns the empty string, and it
is idempotent on every input whose single-pass result does not end in a dot
or a space (the 200-character truncation is the only step that can leave such
a trailing character). -/
theorem sanitize_filename_never_empty_and_idem (s : String) :
    sanitize_filename s ≠ "" ∧
    ((∀ c, (sanitize_filename s).toList.getLast? = some c → isStripChar c = false) →
      sanitize_filename (sanitize_filename s) = sanitize_filename s) := by
  constructor
  · intro h
    have h2 : sanitizeList s.toList = [] := congrArg String.toList h
    exact (sanitizeList_props s.toList).1 h2
  · intro h
    show String.mk (sanitizeList (sanitizeList s.toList)) = String.mk (sanitizeList s.toList)
    exact congrArg String.mk (sanitizeList_idem s.toList h)

/-- Witness for the amended C3 at the concrete input `"hello"`. -/
theorem sanitize_filename_never_empty_and_idem_witness :
    sanitize_filename "hello" ≠ "" ∧
    sanitize_filename (sanitize_filename "hello") = sanitize_filename "hello" :=
  ⟨(sanitize_filename_never_empty_and_idem "hello").1,
   (sanitize_filename_never_empty_and_idem "hello").2 (by decide)⟩

/-! ## Data model: paths and metadata -/

/-- A filesystem path, as its list of segments (the model of `pathlib.Path`;
`parts` of the Python path is exactly this list). -/
abbrev FilePath' := List String

/-- `file_path.name`: the final path segment. -/
def pathName (p : FilePath') : String := (p.getLast?).getD ""

/-- `file_path.parent`: all but the final segment. -/
def pathParent (p : FilePath') : FilePath' := p.dropLast

/-- `pathlib.PurePath.suffix`: the extension of the final component.  CPython
returns `name[i:]` for `i = name.rfind('.')` when `0 < i < len(name) - 1`,
else the empty string. -/
def pySuffix (name : String) : String :=
  let cs := name.toList
  match cs.reverse.findIdx? (fun c => c == '.') with
  | none => ""
  | some r =>
    let i := cs.length - 1 - r
    if 0 < i ∧ i < cs.length - 1 then String.mk (cs.drop i) else ""

example : pySuffix "f.mp3" = ".mp3" := by decide
example : pySuffix ".hidden" = "" := by decide
example : pySuffix "a." = "" := by decide
example : pySuffix "a.tar.gz" = ".gz" := by decide
example : pySuffix "noext" = "" := by decide

/-- The metadata dictionary built by `get_metadata` / merged in
`organize_file`: a dict whose possible keys are `artist`, `album`, `title`
and `track`, with a `none` field modelling an absent key. -/
structure Metadata where
  artist : Option String
  album : Option String
  title : Option String
  track : Option String
deriving DecidableEq, Repr

/-- The empty metadata dictionary. -/
def Metadata.empty : Metadata := ⟨none, none, none, none⟩

/-- `'artist' in metadata and 'album' in metadata and 'title' in metadata`
(lines 225 and 326). -/
def Metadata.complete (m : Metadata) : Prop :=
  m.artist.isSome = true ∧ m.album.isSome = true ∧ m.title.isSome = true

instance (m : Metadata) : Decidable m.complete := by
  unfold Metadata.complete
  infer_instance

/-! ## `get_destination_path` (lines 213-243) -/

/-- `MusicOrganizer.get_destination_path` (lines 213-243).  `destDir` is
`self.dest_dir`, `fileName` is `file_path.name` and `suffix` is
`file_path.suffix`.  When `artist`, `album` and `title` are all present the
path is `dest_dir / artist / album / "[track - ]title<suffix>"` with the
three tag values sanitized (the track string is used verbatim); otherwise it
is `dest_dir / "unorganized" / file_path.name`. -/
def get_destination_path (destDir : FilePath') (fileName suffix : String)
    (metadata : Metadata) : FilePath' :=
  match metadata.artist, metadata.album, metadata.title with
  | some a, some b, some t =>
    let artist := sanitize_filename a
    let album := sanitize_filename b
    let title := sanitize_filename t
    let filename :=
      match metadata.track with
      | some tr => tr ++ " - " ++ title ++ suffix
      | none => title ++ suffix
    destDir ++ [artist, album, filename]
  | _, _, _ =>
    destDir ++ ["unorganized", fileName]

example :
    get_destination_path ["dest"] "x.mp3" ".mp3"
      ⟨some "A/B", some "Best*Of", some "Song", some "02"⟩ =
      ["dest", "AB", "BestOf", "02 - Song.mp3"] := by decide

example :
    get_destination_path ["dest"] "x.mp3" ".mp3" ⟨some "A", none, some "S", none⟩ =
      ["dest", "unorganized", "x.mp3"] := by decide

/-- C1: `get_destination_path` returns the fallback
`dest_dir/unorganized/<original name>` iff at least one of the keys
`artist`, `album`, `title` is absent; when all three are present, the two
path segments that follow `dest_dir` are the sanitized artist and sanitized
album; and replacing the `track` entry by anything (including removing it)
never changes whether the result is the fallback path. -/
theorem get_destination_path_routing (destDir : FilePath')
    (fileName suffix : String) (md : Metadata) (tr : Option String) :
    (get_destination_path destDir fileName suffix md =
        destDir ++ ["unorganized", fileName] ↔
      (md.artist = none ∨ md.album = none ∨ md.title = none)) ∧
    (∀ a b t, md.artist = some a → md.album = some b → md.title = some t →
      ∃ fn, get_destination_path destDir fileName suffix md =
        destDir ++ [sanitize_filename a, sanitize_filename b, fn]) ∧
    (get_destination_path destDir fileName suffix { md with track := tr } =
        destDir ++ ["unorganized", fileName] ↔
      get_destination_path destDir fileName suffix md =
        destDir ++ ["unorganized", fileName]) := by
  have hlen : ∀ (a b t : String) (m : Metadata), m.artist = some a →
      m.album = some b → m.title = some t →
      get_destination_path destDir fileName suffix m ≠
        destDir ++ ["unorganized", fileName] := by
    intro a b t m ha hb ht heq
    unfold get_destination_path at heq
    rw [ha, hb, ht] at heq
    have := congrArg List.length heq
    simp at this
  have hmiss : ∀ (m : Metadata),
      (m.artist = none ∨ m.album = none ∨ m.title = none) →
      get_destination_path destDir fileName suffix m =
        destDir ++ ["unorganized", fileName] := by
    intro m h
    rcases m with ⟨ma, mb, mt, mtr⟩
    simp only at h
    unfold get_destination_path
    rcases h with h | h | h
    · subst h; rfl
    · subst h; cases ma <;> rfl
    · subst h; cases ma <;> cases mb <;> rfl
  have hcomp : ∀ (m : Metadata),
      ¬(m.artist = none ∨ m.album = none ∨ m.title = none) →
      ∃ a b t, m.artist = some a ∧ m.album = some b ∧ m.title = some t := by
    intro m h
    push_neg at h
    obtain ⟨ha, hb, ht⟩ := h
    obtain ⟨a, ha⟩ := Option.ne_none_iff_exists'.mp ha
    obtain ⟨b, hb⟩ := Option.ne_none_iff_exists'.mp hb
    obtain ⟨t, ht⟩ := Option.ne_none_iff_exists'.mp ht
    exact ⟨a, b, t, ha, hb, ht⟩
  refine ⟨⟨?_, hmiss md⟩, ?_, ?_, ?_⟩
  · intro heq
    by_contra h
    obtain ⟨a, b, t, ha, hb, ht⟩ := hcomp md h
    exact hlen a b t md ha hb ht heq
  · intro a b t ha hb ht
    refine ⟨(match md.track with
      | some tr' => tr' ++ " - " ++ sanitize_filename t ++ suffix
      | none => sanitize_filename t ++ suffix), ?_⟩
    unfold get_destination_path
    rw [ha, hb, ht]
  · intro heq
    apply hmiss
    by_contra h
    obtain ⟨a, b, t, ha, hb, ht⟩ := hcomp { md with track := tr } h
    exact hlen a b t { md with track := tr } ha hb ht heq
  · intro heq
    apply hmiss
    by_contra h
    obtain ⟨a, b, t, ha, hb, ht⟩ := hcomp md h
    exact hlen a b t md ha hb ht heq

/-- Witness for C1 at concrete inputs. -/
theorem get_destination_path_routing_witness :
    (get_destination_path ["dest"] "x.mp3" ".mp3" ⟨some "A", some "B", some "T", none⟩ =
        ["dest"] ++ ["unorganized", "x.mp3"] ↔
      ((⟨some "A", some "B", some "T", none⟩ : Metadata).artist = none ∨
       (⟨some "A", some "B", some "T", none⟩ : Metadata).album = none ∨
       (⟨some "A", some "B", some "T", none⟩ : Metadata).title = none)) ∧
    (∃ fn, get_destination_path ["dest"] "x.mp3" ".mp3"
        ⟨some "A", some "B", some "T", none⟩ =
      ["dest"] ++ [sanitize_filename "A", sanitize_filename "B", fn]) :=
  ⟨(get_destination_path_routing ["dest"] "x.mp3" ".mp3"
      ⟨some "A", some "B", some "T", none⟩ none).1,
   (get_destination_path_routing ["dest"] "x.mp3" ".mp3"
      ⟨some "A", some "B", some "T", none⟩ none).2.1 "A" "B" "T" rfl rfl rfl⟩

/-- C8: key presence, not value content, decides placement.  When the keys
`artist`, `album`, `title` are all present — even with empty-string values —
`get_destination_path` builds an organized path whose artist/album segments
are the sanitized values, never the `unorganized` fallback, and the sanitizer
turns the empty string into `"Unknown"`. -/
theorem get_destination_path_empty_values (destDir : FilePath')
    (fileName suffix : String) (md : Metadata) (a b t : String)
    (ha : md.artist = some a) (hb : md.album = some b)
    (ht : md.title = some t) :
    get_destination_path destDir fileName suffix md ≠
      destDir ++ ["unorganized", fileName] ∧
    get_destination_path destDir fileName suffix md =
      destDir ++ [sanitize_filename a, sanitize_filename b,
        (match md.track with
         | some tr => tr ++ " - " ++ sanitize_filename t ++ suffix
         | none => sanitize_filename t ++ suffix)] ∧
    sanitize_filename "" = "Unknown" := by
  refine ⟨?_, ?_, by decide⟩
  · intro heq
    unfold get_destination_path at heq
    rw [ha, hb, ht] at heq
    have := congrArg List.length heq
    simp at this
  · unfold get_destination_path
    rw [ha, hb, ht]

/-- Witness for C8: all three keys present with empty-string values route to
`dest/Unknown/Unknown/Unknown.mp3`, not to `unorganized/`. -/
theorem get_destination_path_empty_values_witness :
    get_destination_path ["dest"] "x.mp3" ".mp3" ⟨some "", some "", some "", none⟩ ≠
      ["dest"] ++ ["unorganized", "x.mp3"] ∧
    get_destination_path ["dest"] "x.mp3" ".mp3" ⟨some "", some "", some "", none⟩ =
      ["dest"] ++ [sanitize_filename "", sanitize_filename "",
        sanitize_filename "" ++ ".mp3"] ∧
    sanitize_filename "" = "Unknown" :=
  get_destination_path_empty_values ["dest"] "x.mp3" ".mp3"
    ⟨some "", some "", some "", none⟩ "" "" "" rfl rfl rfl

/-- C9: the track component bypasses `sanitize_filename`.  With all four keys
present the destination filename is exactly the stored track string (used
verbatim, whatever characters it contains), `" - "`, the sanitized title and
the original extension. -/
theorem get_destination_path_track_verbatim (destDir : FilePath')
    (fileName suffix : String) (md : Metadata) (a b t tr : String)
    (ha : md.artist = some a) (hb : md.album = some b)
    (ht : md.title = some t) (htr : md.track = some tr) :
    get_destination_path destDir fileName suffix md =
      destDir ++ [sanitize_filename a, sanitize_filename b,
        tr ++ " - " ++ sanitize_filename t ++ suffix] := by
  unfold get_destination_path
  rw [ha, hb, ht, htr]

/-- Witness for C9: a track string holding the filesystem-unsafe character
`?` appears verbatim in the destination filename, even though the sanitizer
would have deleted it. -/
theorem get_destination_path_track_verbatim_witness :
    get_destination_path ["dest"] "x.mp3" ".mp3"
      ⟨some "A", some "B", some "T", some "0?"⟩ =
      ["dest"] ++ [sanitize_filename "A", sanitize_filename "B",
        "0?" ++ " - " ++ sanitize_filename "T" ++ ".mp3"] :=
  get_destination_path_track_verbatim ["dest"] "x.mp3" ".mp3"
    ⟨some "A", some "B", some "T", some "0?"⟩ "A" "B" "T" "0?" rfl rfl rfl rfl

/-! ## Track-number formatting in `get_metadata` (lines 143-148) -/

/-- Python `str.zfill(width)`: left-pad with `'0'` to `width`, keeping a
leading `'+'`/`'-'` sign in front of the padding. -/
def pyZfill (l : List Char) (width : Nat) : List Char :=
  match l with
  | c :: rest =>
    if c = '+' ∨ c = '-' then c :: (List.replicate (width - l.length) '0' ++ rest)
    else List.replicate (width - l.length) '0' ++ l
  | [] => List.replicate width '0'

/-- `track.split('/')[0]`: the portion of the string before the first `'/'`
(the whole string when there is no `'/'`). -/
def splitSlashHead (l : List Char) : List Char :=
  l.takeWhile (fun c => !(c == '/'))

/-- The track-number processing of `get_metadata` (line 147):
`metadata['track'] = track.split('/')[0].zfill(2)`. -/
def formatTrack (track : String) : String :=
  String.mk (pyZfill (splitSlashHead track.toList) 2)

/-- C7: the stored track string is the portion of the tag value before the
first `'/'`, zero-filled to width 2: `"3/12"` gives `"03"` and `"7"` gives
`"07"`; in general, for a tag value that splits as `p ++ "/" ++ r` with no
`'/'` in `p` the stored string is `zfill 2 p`, and for a slash-free tag value
it is `zfill 2` of the whole value. -/
theorem get_metadata_track_formatting :
    formatTrack "3/12" = "03" ∧ formatTrack "7" = "07" ∧
    (∀ (s : String) (p r : List Char), s.toList = p ++ '/' :: r →
      (∀ c ∈ p, c ≠ '/') → formatTrack s = String.mk (pyZfill p 2)) ∧
    (∀ s : String, (∀ c ∈ s.toList, c ≠ '/') →
      formatTrack s = String.mk (pyZfill s.toList 2)) := by
  refine ⟨by decide, by decide, ?_, ?_⟩
  · intro s p r hs hp
    unfold formatTrack splitSlashHead
    rw [hs]
    congr 1
    congr 1
    rw [List.takeWhile_append_of_pos (by intro c hc; simpa using hp c hc)]
    simp
  · intro s hs
    unfold formatTrack splitSlashHead
    congr 1
    congr 1
    rw [List.takeWhile_eq_self_iff]
    intro c hc
    simpa using hs c hc

/-- Witness for C7: the split-at-slash characterization applied at `"3/12"`. -/
theorem get_metadata_track_formatting_witness :
    formatTrack "3/12" = String.mk (pyZfill ['3'] 2) :=
  get_metadata_track_formatting.2.2.1 "3/12" ['3'] ['1', '2'] rfl (by decide)

/-! ## `get_metadata_from_acoustid` (lines 156-211) and the merge in
`organize_file` (lines 322-331) -/

/-- One entry of the sequence returned by
`acoustid.match(api_key, path)`: `(score, recording_id, title, artist)`.
Scores are modelled as rationals in `[0, 1]`. -/
structure AcoustidResult where
  score : ℚ
  recordingId : String
  title : String
  artist : String

/-- `MusicOrganizer.get_metadata_from_acoustid` (lines 156-211), as a pure
function of the external collaborators' responses: `apiKey` is
`self.acoustid_api_key`, `results` the fingerprint matches (empty also models
an `acoustid.match` failure, which the method catches and turns into `None`),
`releaseTitles` the titles of `release-list` in the MusicBrainz recording
(empty when the key is missing), and `mbOk` whether
`musicbrainzngs.get_recording_by_id` succeeded.  The first result whose score
exceeds the 0.5 confidence threshold supplies `{title, artist}`, plus the
first release title as `album` when the MusicBrainz lookup succeeds; no track
key is ever produced. -/
def get_metadata_from_acoustid (apiKey : Option String)
    (results : List AcoustidResult) (releaseTitles : List String)
    (mbOk : Bool) : Option Metadata :=
  match apiKey with
  | none => none
  | some _ =>
    match results.find? (fun r => decide ((1 : ℚ) / 2 < r.score)) with
    | none => none
    | some r =>
      if mbOk then
        some { title := some r.title, artist := some r.artist,
               album := releaseTitles.head?, track := none }
      else
        some { title := some r.title, artist := some r.artist,
               album := none, track := none }

/-- Python `dict.update`: every key present in `b` overwrites (or adds to)
the corresponding entry of `a`; keys absent from `b` are kept from `a`. -/
def dictUpdate (a b : Metadata) : Metadata :=
  { artist := b.artist.or a.artist
    album := b.album.or a.album
    title := b.title.or a.title
    track := b.track.or a.track }

/-- The metadata-resolution step of `organize_file` (lines 322-331): keep the
embedded tags as-is when `artist`, `album` and `title` are all present;
otherwise apply `metadata.update(acoustid_metadata)` when the lookup produced
a result. -/
def resolved_metadata (tags : Metadata) (lookup : Option Metadata) : Metadata :=
  if tags.complete then tags
  else
    match lookup with
    | some m => dictUpdate tags m
    | none => tags

/-- C2 counterexample: the merge is `dict.update`, so a lookup-supplied
`title` replaces an embedded `title` instead of retaining it.  Tags
`{artist: "A", title: "T1"}` (album missing, so the lookup runs) merged with
lookup result `{title: "T2", artist: "A2", album: "B"}` store title `"T2"`,
not the embedded `"T1"`. -/
theorem resolved_metadata_overwrites :
    (resolved_metadata ⟨some "A", none, some "T1", none⟩
        (some ⟨some "A2", some "B", some "T2", none⟩)).title ≠
      (⟨some "A", none, some "T1", none⟩ : Metadata).title := by decide

/-- C2 (amended): when at least one of artist/album/title is missing from the
embedded tags and the fingerprint lookup returns a match above the 0.5
confidence threshold, the merged metadata is `dict.update` of the embedded
tags with the lookup result — every key the lookup supplies overwrites the
same-named embedded key, keys the lookup does not supply are retained, and
the lookup never supplies a track key (so the embedded track survives); the
match used is the first result whose score exceeds 1/2.  When artist, album
and title are all present in the embedded tags, the embedded tags are used
as-is. -/
theorem resolved_metadata_merge (tags : Metadata) (apiKey : Option String)
    (results : List AcoustidResult) (releaseTitles : List String)
    (mbOk : Bool) (m : Metadata)
    (hmiss : ¬tags.complete)
    (hlk : get_metadata_from_acoustid apiKey results releaseTitles mbOk = some m) :
    resolved_metadata tags (get_metadata_from_acoustid apiKey results releaseTitles mbOk) =
      dictUpdate tags m ∧
    (∀ v, m.title = some v → (dictUpdate tags m).title = some v) ∧
    (∀ v, m.artist = some v → (dictUpdate tags m).artist = some v) ∧
    (∀ v, m.album = some v → (dictUpdate tags m).album = some v) ∧
    (m.album = none → (dictUpdate tags m).album = tags.album) ∧
    (dictUpdate tags m).track = tags.track ∧
    (∃ r, results.find? (fun x => decide ((1 : ℚ) / 2 < x.score)) = some r ∧
      (1 : ℚ) / 2 < r.score ∧ m.title = some r.title ∧ m.artist = some r.artist) ∧
    (∀ (tags' : Metadata) (lk : Option Metadata), tags'.complete →
      resolved_metadata tags' lk = tags') := by
  have hkey : ∃ k, apiKey = some k := by
    cases hk : apiKey with
    | none => rw [hk] at hlk; cases hlk
    | some k => exact ⟨k, rfl⟩
  obtain ⟨k, hk⟩ := hkey
  rw [hk] at hlk
  have hfind : ∃ r, results.find? (fun x => decide ((1 : ℚ) / 2 < x.score)) = some r := by
    cases hf : results.find? (fun x => decide ((1 : ℚ) / 2 < x.score)) with
    | none =>
      unfold get_metadata_from_acoustid at hlk
      rw [hf] at hlk
      cases hlk
    | some r => exact ⟨r, rfl⟩
  obtain ⟨r, hf⟩ := hfind
  have hm : m.title = some r.title ∧ m.artist = some r.artist ∧ m.track = none := by
    unfold get_metadata_from_acoustid at hlk
    rw [hf] at hlk
    cases mbOk with
    | true =>
      have hlk2 : some (⟨some r.artist, releaseTitles.head?,
          some r.title, none⟩ : Metadata) = some m := hlk
      injection hlk2 with h
      rw [← h]
      exact ⟨rfl, rfl, rfl⟩
    | false =>
      have hlk2 : some (⟨some r.artist, none,
          some r.title, none⟩ : Metadata) = some m := hlk
      injection hlk2 with h
      rw [← h]
      exact ⟨rfl, rfl, rfl⟩
  refine ⟨?_, ?_, ?_, ?_, ?_, ?_, ⟨r, hf, ?_, hm.1, hm.2.1⟩, ?_⟩
  · unfold resolved_metadata
    rw [if_neg hmiss, hk, hlk]
  · intro v hv
    unfold dictUpdate
    rw [hv]
    rfl
  · intro v hv
    unfold dictUpdate
    rw [hv]
    rfl
  · intro v hv
    unfold dictUpdate
    rw [hv]
    rfl
  · intro hv
    unfold dictUpdate
    rw [hv]
    rfl
  · unfold dictUpdate
    rw [hm.2.2]
    rfl
  · have := List.find?_some hf
    simpa using this
  · intro tags' lk h
    unfold resolved_metadata
    rw [if_pos h]

/-- Witness for the amended C2 at concrete inputs: embedded tags missing the
album, one fingerprint match with score 3/4, MusicBrainz lookup succeeding
with one release. -/
theorem resolved_metadata_merge_witness :
    resolved_metadata ⟨some "A", none, some "T1", none⟩
        (get_metadata_from_acoustid (some "key")
          [⟨3 / 4, "rid", "T2", "A2"⟩] ["B"] true) =
      dictUpdate ⟨some "A", none, some "T1", none⟩
        ⟨some "A2", some "B", some "T2", none⟩ ∧
    (dictUpdate ⟨some "A", none, some "T1", none⟩
        ⟨some "A2", some "B", some "T2", none⟩).track = none :=
  ⟨(resolved_metadata_merge ⟨some "A", none, some "T1", none⟩ (some "key")
      [⟨3 / 4, "rid", "T2", "A2"⟩] ["B"] true
      ⟨some "A2", some "B", some "T2", none⟩ (by decide)
      (by norm_num [get_metadata_from_acoustid, List.find?])).1,
   (resolved_metadata_merge ⟨some "A", none, some "T1", none⟩ (some "key")
      [⟨3 / 4, "rid", "T2", "A2"⟩] ["B"] true
      ⟨some "A2", some "B", some "T2", none⟩ (by decide)
      (by norm_num [get_metadata_from_acoustid, List.find?])).2.2.2.2.2.1⟩

/-! ## Filesystem model and run state -/

/-- The `self.stats` dictionary (lines 74-82). -/
structure Stats where
  total_files : Nat
  organized : Nat
  unorganized : Nat
  metadata_found : Nat
  errors : Nat
  skipped : Nat
  album_art_copied : Nat
deriving DecidableEq, Repr

/-- All counters at zero, as in `__init__`. -/
def Stats.zero : Stats := ⟨0, 0, 0, 0, 0, 0, 0⟩

/-- One regular file: its (absolute) path and an abstract content token. -/
structure FSFile where
  path : FilePath'
  content : Nat
deriving DecidableEq, Repr

/-- The filesystem as a finite list of regular files; the list order models
the arbitrary directory-enumeration order of `iterdir`. -/
abbrev FileSystem := List FSFile

/-- `path.exists()`. -/
def fsExists (fs : FileSystem) (p : FilePath') : Bool :=
  fs.any (fun f => decide (f.path = p))

/-- Reading a file's content, when present. -/
def fsLookup (fs : FileSystem) (p : FilePath') : Option Nat :=
  (fs.find? (fun f => decide (f.path = p))).map FSFile.content

/-- Writing `c` at `p`: overwrite the existing entry or append a new one. -/
def fsUpsert (fs : FileSystem) (p : FilePath') (c : Nat) : FileSystem :=
  if fsExists fs p then
    fs.map (fun f => if f.path = p then ⟨p, c⟩ else f)
  else fs ++ [⟨p, c⟩]

/-- `shutil.copy2(src, dst)` (overwrites an existing destination). -/
def fsCopy (fs : FileSystem) (src dst : FilePath') : FileSystem :=
  match fsLookup fs src with
  | some c => fsUpsert fs dst c
  | none => fs

/-- `shutil.move(src, dst)`. -/
def fsMove (fs : FileSystem) (src dst : FilePath') : FileSystem :=
  match fsLookup fs src with
  | some c => fsUpsert (fs.filter (fun f => !decide (f.path = src))) dst c
  | none => fs

/-- `source_dir.iterdir()` restricted to regular files, in enumeration
order. -/
def fsListDir (fs : FileSystem) (d : FilePath') : List FilePath' :=
  (fs.filter (fun f => decide (pathParent f.path = d))).map FSFile.path

/-- Python `str.lower()` (ASCII model, enough for extensions). -/
def strLower (s : String) : String := String.mk (s.toList.map Char.toLower)

/-- `IMAGE_EXTENSIONS` (line 50). -/
def IMAGE_EXTENSIONS : List String := [".jpg", ".jpeg", ".png"]

/-- The constructor arguments of `MusicOrganizer` together with the external
collaborators `organize_file` consults, as pure response functions:
`tags` is the result of `get_metadata` (which catches its own exceptions and
returns `{}`), `acoustid` the result of `get_metadata_from_acoustid` (which
also catches its own failures), `acoustidFound` whether that lookup
incremented `stats['metadata_found']`, and the `…Fails` fields say which
filesystem primitives raise when invoked (modelling `OSError` and
friends). -/
structure Env where
  destDir : FilePath'
  dryRun : Bool
  moveFiles : Bool
  resolve : FilePath' → FilePath'
  tags : FilePath' → Metadata
  acoustid : FilePath' → Option Metadata
  acoustidFound : FilePath' → Bool
  mkdirFails : FilePath' → Bool
  transferFails : FilePath' → FilePath' → Bool
  artScanFails : FilePath' → Bool
  artCopyFails : FilePath' → FilePath' → Bool

/-- The mutable state of one run: the filesystem, `self.stats` and
`self.processed_album_art_dirs`. -/
structure OrgState where
  fs : FileSystem
  stats : Stats
  processed_album_art_dirs : List FilePath'
deriving DecidableEq

/-! ## `copy_album_art` (lines 245-307) -/

/-- `MusicOrganizer.copy_album_art` (lines 245-307): skip when the resolved
source directory was already processed; mark it processed; skip when the
destination album directory already holds `cover.jpg`/`cover.jpeg`/
`cover.png`; scan the source directory (a caught scan error acts like an
empty scan); copy the first image file to `cover.<ext>` (`.jpeg` normalized
to `.jpg`), counting it, unless in dry-run mode or the copy itself fails
(which is caught and only logged). -/
def copy_album_art (env : Env) (st : OrgState)
    (source_dir dest_album_dir : FilePath') : OrgState :=
  let source_dir_key := env.resolve source_dir
  if source_dir_key ∈ st.processed_album_art_dirs then st
  else
    let st1 : OrgState :=
      { st with processed_album_art_dirs :=
          source_dir_key :: st.processed_album_art_dirs }
    if [".jpg", ".jpeg", ".png"].any
        (fun ext => fsExists st1.fs (dest_album_dir ++ ["cover" ++ ext])) then st1
    else if env.artScanFails source_dir then st1
    else
      match (fsListDir st1.fs source_dir).filter
          (fun p => decide (strLower (pySuffix (pathName p)) ∈ IMAGE_EXTENSIONS)) with
      | [] => st1
      | source_image :: _ =>
        let dest_ext := if strLower (pySuffix (pathName source_image)) = ".jpeg"
          then ".jpg" else strLower (pySuffix (pathName source_image))
        let dest_image := dest_album_dir ++ ["cover" ++ dest_ext]
        if env.dryRun then st1
        else if env.artCopyFails source_image dest_image then st1
        else
          { st1 with
            fs := fsCopy st1.fs source_image dest_image
            stats := { st1.stats with
              album_art_copied := st1.stats.album_art_copied + 1 } }

/-! ## `organize_file` (lines 309-387) and the loop of `organize`
(lines 429-430) -/

/-- The destination computed by `organize_file` at lines 322-334: resolve the
metadata (embedded tags, falling back to the fingerprint lookup) and feed it
to `get_destination_path`. -/
def organize_dest (env : Env) (file_path : FilePath') : FilePath' :=
  get_destination_path env.destDir (pathName file_path)
    (pySuffix (pathName file_path))
    (resolved_metadata (env.tags file_path) (env.acoustid file_path))

/-- The `stats['metadata_found']` increment performed inside
`get_metadata_from_acoustid` (line 198), which runs only when the embedded
tags are incomplete. -/
def bumpFound (env : Env) (st : OrgState) (file_path : FilePath') : OrgState :=
  if ¬(env.tags file_path).complete ∧ env.acoustidFound file_path = true then
    { st with stats :=
        { st.stats with metadata_found := st.stats.metadata_found + 1 } }
  else st

/-- Outcome of the `try` body of `organize_file`: normal return (always
`True`) or a propagating exception. -/
inductive BodyResult
  | ok
  | exn
deriving DecidableEq

/-- The `try` body of `organize_file` (lines 319-382): resolve metadata,
compute the destination, skip (returning `True`) when source and destination
resolve identically or, in copy mode, when the destination exists; classify
into the `unorganized`/`organized` counters; then, outside dry-run mode,
create the directory and transfer the file — either primitive may raise
(`BodyResult.exn`) — and finally propagate album art for organized files. -/
def organize_file_run (env : Env) (st0 : OrgState) (file_path : FilePath') :
    OrgState × BodyResult :=
  let st := bumpFound env st0 file_path
  let dest_path := organize_dest env file_path
  if env.resolve file_path = env.resolve dest_path then
    ({ st with stats := { st.stats with skipped := st.stats.skipped + 1 } },
     BodyResult.ok)
  else if env.moveFiles = false ∧ fsExists st.fs dest_path = true then
    ({ st with stats := { st.stats with skipped := st.stats.skipped + 1 } },
     BodyResult.ok)
  else
    let st1 := if "unorganized" ∈ dest_path then
        { st with stats :=
            { st.stats with unorganized := st.stats.unorganized + 1 } }
      else
        { st with stats :=
            { st.stats with organized := st.stats.organized + 1 } }
    if env.dryRun then
      (if "unorganized" ∈ dest_path then st1
       else copy_album_art env st1 (pathParent file_path) (pathParent dest_path),
       BodyResult.ok)
    else if env.mkdirFails (pathParent dest_path) then (st1, BodyResult.exn)
    else if env.transferFails file_path dest_path then (st1, BodyResult.exn)
    else
      let newFs := if env.moveFiles then fsMove st1.fs file_path dest_path
        else fsCopy st1.fs file_path dest_path
      let st2 := { st1 with fs := newFs }
      (if "unorganized" ∈ dest_path then st2
       else copy_album_art env st2 (pathParent file_path) (pathParent dest_path),
       BodyResult.ok)

/-- `MusicOrganizer.organize_file` (lines 309-387): the `try` body wrapped in
the blanket `except` handler of lines 384-387, which increments
`stats['errors']` and returns `False`. -/
def organize_file (env : Env) (st : OrgState) (file_path : FilePath') :
    OrgState × Bool :=
  match organize_file_run env st file_path with
  | (st', BodyResult.ok) => (st', true)
  | (st', BodyResult.exn) =>
    ({ st' with stats := { st'.stats with errors := st'.stats.errors + 1 } },
     false)

/-- The processing loop of `organize` (lines 429-430): fold `organize_file`
over the discovered batch, ignoring the per-file Boolean. -/
def organize_run (env : Env) : OrgState → List FilePath' → OrgState
  | st, [] => st
  | st, f :: rest => organize_run env (organize_file env st f).1 rest

@[simp] theorem bumpFound_fs (env : Env) (st : OrgState) (f : FilePath') :
    (bumpFound env st f).fs = st.fs := by
  unfold bumpFound; split <;> rfl

@[simp] theorem bumpFound_dirs (env : Env) (st : OrgState) (f : FilePath') :
    (bumpFound env st f).processed_album_art_dirs =
      st.processed_album_art_dirs := by
  unfold bumpFound; split <;> rfl

@[simp] theorem bumpFound_skipped (env : Env) (st : OrgState) (f : FilePath') :
    (bumpFound env st f).stats.skipped = st.stats.skipped := by
  unfold bumpFound; split <;> rfl

@[simp] theorem bumpFound_organized (env : Env) (st : OrgState) (f : FilePath') :
    (bumpFound env st f).stats.organized = st.stats.organized := by
  unfold bumpFound; split <;> rfl

@[simp] theorem bumpFound_unorganized (env : Env) (st : OrgState) (f : FilePath') :
    (bumpFound env st f).stats.unorganized = st.stats.unorganized := by
  unfold bumpFound; split <;> rfl

@[simp] theorem bumpFound_errors (env : Env) (st : OrgState) (f : FilePath') :
    (bumpFound env st f).stats.errors = st.stats.errors := by
  unfold bumpFound; split <;> rfl

/-- C4: in copy mode, when the computed destination already exists and does
not resolve to the same location as the source, `organize_file` returns
`True` with no exception (`errors` unchanged), increments `skipped` by one,
leaves `organized` and `unorganized` unchanged, and leaves the whole
filesystem — in particular the source file and the existing destination
file — untouched. -/
theorem organize_file_copy_skip (env : Env) (st : OrgState)
    (file_path : FilePath')
    (hmove : env.moveFiles = false)
    (hne : env.resolve file_path ≠ env.resolve (organize_dest env file_path))
    (hex : fsExists st.fs (organize_dest env file_path) = true) :
    (organize_file env st file_path).2 = true ∧
    (organize_file env st file_path).1.fs = st.fs ∧
    (organize_file env st file_path).1.stats.skipped = st.stats.skipped + 1 ∧
    (organize_file env st file_path).1.stats.organized = st.stats.organized ∧
    (organize_file env st file_path).1.stats.unorganized =
      st.stats.unorganized ∧
    (organize_file env st file_path).1.stats.errors = st.stats.errors := by
  have hstep : organize_file env st file_path =
      ({ bumpFound env st file_path with stats :=
          { (bumpFound env st file_path).stats with
            skipped := (bumpFound env st file_path).stats.skipped + 1 } },
       true) := by
    unfold organize_file organize_file_run
    rw [if_neg hne,
      if_pos (show env.moveFiles = false ∧
        fsExists (bumpFound env st file_path).fs (organize_dest env file_path) = true
        from ⟨hmove, by rw [bumpFound_fs]; exact hex⟩)]
  rw [hstep]
  refine ⟨rfl, ?_, ?_, ?_, ?_, ?_⟩ <;> simp

/-- Witness environment: copy mode, complete embedded tags, no failing
primitives, `resolve` the identity. -/
def envSkip : Env :=
  { destDir := ["dest"]
    dryRun := false
    moveFiles := false
    resolve := fun p => p
    tags := fun _ => ⟨some "A", some "B", some "T", none⟩
    acoustid := fun _ => none
    acoustidFound := fun _ => false
    mkdirFails := fun _ => false
    transferFails := fun _ _ => false
    artScanFails := fun _ => false
    artCopyFails := fun _ _ => false }

/-- Witness state: the source file plus an already-present destination
file. -/
def stSkip : OrgState :=
  { fs := [⟨["src", "f.mp3"], 0⟩, ⟨["dest", "A", "B", "T.mp3"], 1⟩]
    stats := Stats.zero
    processed_album_art_dirs := [] }

/-- Witness for C4 at a concrete environment and state. -/
theorem organize_file_copy_skip_witness :
    (organize_file envSkip stSkip ["src", "f.mp3"]).2 = true ∧
    (organize_file envSkip stSkip ["src", "f.mp3"]).1.fs = stSkip.fs ∧
    (organize_file envSkip stSkip ["src", "f.mp3"]).1.stats.skipped =
      stSkip.stats.skipped + 1 ∧
    (organize_file envSkip stSkip ["src", "f.mp3"]).1.stats.organized =
      stSkip.stats.organized ∧
    (organize_file envSkip stSkip ["src", "f.mp3"]).1.stats.unorganized =
      stSkip.stats.unorganized ∧
    (organize_file envSkip stSkip ["src", "f.mp3"]).1.stats.errors =
      stSkip.stats.errors :=
  organize_file_copy_skip envSkip stSkip ["src", "f.mp3"] rfl
    (by decide) (by decide)

/-- The state reached when the `try` body of `organize_file` raises at the
`mkdir` or at the transfer: the classification increment has already been
applied. -/
def classifiedState (env : Env) (st : OrgState) (file_path : FilePath') :
    OrgState :=
  if "unorganized" ∈ organize_dest env file_path then
    { bumpFound env st file_path with stats :=
        { (bumpFound env st file_path).stats with
          unorganized := (bumpFound env st file_path).stats.unorganized + 1 } }
  else
    { bumpFound env st file_path with stats :=
        { (bumpFound env st file_path).stats with
          organized := (bumpFound env st file_path).stats.organized + 1 } }

/-- When no skip applies, the run is not a dry run, and the `mkdir` or
transfer primitive raises, the `try` body ends in the exception outcome with
the classification increment retained. -/
theorem organize_file_run_exn (env : Env) (st : OrgState)
    (file_path : FilePath')
    (hdry : env.dryRun = false)
    (hne : env.resolve file_path ≠ env.resolve (organize_dest env file_path))
    (hnoskip : ¬(env.moveFiles = false ∧
      fsExists st.fs (organize_dest env file_path) = true))
    (hfail : env.mkdirFails (pathParent (organize_dest env file_path)) = true ∨
      env.transferFails file_path (organize_dest env file_path) = true) :
    organize_file_run env st file_path =
      (classifiedState env st file_path, BodyResult.exn) := by
  have hnoskip' : ¬(env.moveFiles = false ∧
      fsExists (bumpFound env st file_path).fs
        (organize_dest env file_path) = true) := by
    rw [bumpFound_fs]
    exact hnoskip
  simp only [organize_file_run]
  rw [if_neg hne, if_neg hnoskip', hdry]
  rw [if_neg (fun hc => nomatch hc)]
  unfold classifiedState
  rcases hfail with hmk | htr
  · rw [if_pos hmk]
  · by_cases hmk : env.mkdirFails (pathParent (organize_dest env file_path)) = true
    · rw [if_pos hmk]
    · rw [if_neg hmk, if_pos htr]

@[simp] theorem classifiedState_errors (env : Env) (st : OrgState)
    (f : FilePath') :
    (classifiedState env st f).stats.errors = st.stats.errors := by
  unfold classifiedState; split <;> simp

@[simp] theorem classifiedState_skipped (env : Env) (st : OrgState)
    (f : FilePath') :
    (classifiedState env st f).stats.skipped = st.stats.skipped := by
  unfold classifiedState; split <;> simp

/-- C5: an exception raised while processing a single file (here: at either
fallible primitive of the transfer phase — directory creation or the
copy/move itself) is caught inside `organize_file`: the `errors` counter is
incremented by one, `organize_file` returns `False` instead of propagating,
and the `organize` loop continues with the remaining files. -/
theorem organize_file_catches_errors (env : Env) (st : OrgState)
    (file_path : FilePath') (rest : List FilePath')
    (hdry : env.dryRun = false)
    (hne : env.resolve file_path ≠ env.resolve (organize_dest env file_path))
    (hnoskip : ¬(env.moveFiles = false ∧
      fsExists st.fs (organize_dest env file_path) = true))
    (hfail : env.mkdirFails (pathParent (organize_dest env file_path)) = true ∨
      env.transferFails file_path (organize_dest env file_path) = true) :
    (organize_file env st file_path).2 = false ∧
    (organize_file env st file_path).1.stats.errors = st.stats.errors + 1 ∧
    organize_run env st (file_path :: rest) =
      organize_run env (organize_file env st file_path).1 rest := by
  have hof : organize_file env st file_path =
      ({ classifiedState env st file_path with stats :=
          { (classifiedState env st file_path).stats with errors :=
              (classifiedState env st file_path).stats.errors + 1 } },
       false) := by
    unfold organize_file
    rw [organize_file_run_exn env st file_path hdry hne hnoskip hfail]
  refine ⟨by rw [hof], ?_, rfl⟩
  rw [hof]
  simp

/-- Witness environment for the failing transfer: as `envSkip` but with a
transfer primitive that always raises. -/
def envFail : Env := { envSkip with transferFails := fun _ _ => true }

/-- Witness state for the failing transfer: only the source file exists. -/
def stFail : OrgState :=
  { fs := [⟨["src", "f.mp3"], 0⟩]
    stats := Stats.zero
    processed_album_art_dirs := [] }

/-- Witness for C5 at a concrete environment, state and batch. -/
theorem organize_file_catches_errors_witness :
    (organize_file envFail stFail ["src", "f.mp3"]).2 = false ∧
    (organize_file envFail stFail ["src", "f.mp3"]).1.stats.errors =
      stFail.stats.errors + 1 ∧
    organize_run envFail stFail (["src", "f.mp3"] :: [["src", "g.mp3"]]) =
      organize_run envFail (organize_file envFail stFail ["src", "f.mp3"]).1
        [["src", "g.mp3"]] :=
  organize_file_catches_errors envFail stFail ["src", "f.mp3"]
    [["src", "g.mp3"]] rfl (by decide) (by decide) (Or.inr rfl)

/-- C10: the classification increment (`organized` or `unorganized`) happens
before the transfer is attempted and is not rolled back when the transfer
phase raises: the same file contributes both one classification increment
and one `errors` increment, and `organize_file` returns `False`. -/
theorem organize_file_classify_before_transfer (env : Env) (st : OrgState)
    (file_path : FilePath')
    (hdry : env.dryRun = false)
    (hne : env.resolve file_path ≠ env.resolve (organize_dest env file_path))
    (hnoskip : ¬(env.moveFiles = false ∧
      fsExists st.fs (organize_dest env file_path) = true))
    (hfail : env.mkdirFails (pathParent (organize_dest env file_path)) = true ∨
      env.transferFails file_path (organize_dest env file_path) = true) :
    ("unorganized" ∈ organize_dest env file_path →
      (organize_file env st file_path).1.stats.unorganized =
        st.stats.unorganized + 1 ∧
      (organize_file env st file_path).1.stats.organized =
        st.stats.organized) ∧
    ("unorganized" ∉ organize_dest env file_path →
      (organize_file env st file_path).1.stats.organized =
        st.stats.organized + 1 ∧
      (organize_file env st file_path).1.stats.unorganized =
        st.stats.unorganized) ∧
    (organize_file env st file_path).1.stats.errors = st.stats.errors + 1 ∧
    (organize_file env st file_path).2 = false := by
  have hof : organize_file env st file_path =
      ({ classifiedState env st file_path with stats :=
          { (classifiedState env st file_path).stats with errors :=
              (classifiedState env st file_path).stats.errors + 1 } },
       false) := by
    unfold organize_file
    rw [organize_file_run_exn env st file_path hdry hne hnoskip hfail]
  refine ⟨?_, ?_, by rw [hof]; simp, by rw [hof]⟩
  · intro hmem
    rw [hof]
    unfold classifiedState
    rw [if_pos hmem]
    simp
  · intro hmem
    rw [hof]
    unfold classifiedState
    rw [if_neg hmem]
    simp

/-- Witness for C10 at a concrete environment and state (destination is
organized, transfer raises). -/
theorem organize_file_classify_before_transfer_witness :
    (organize_file envFail stFail ["src", "f.mp3"]).1.stats.organized =
      stFail.stats.organized + 1 ∧
    (organize_file envFail stFail ["src", "f.mp3"]).1.stats.unorganized =
      stFail.stats.unorganized ∧
    (organize_file envFail stFail ["src", "f.mp3"]).1.stats.errors =
      stFail.stats.errors + 1 ∧
    (organize_file envFail stFail ["src", "f.mp3"]).2 = false :=
  ⟨((organize_file_classify_before_transfer envFail stFail ["src", "f.mp3"]
      rfl (by decide) (by decide) (Or.inr rfl)).2.1 (by decide)).1,
   ((organize_file_classify_before_transfer envFail stFail ["src", "f.mp3"]
      rfl (by decide) (by decide) (Or.inr rfl)).2.1 (by decide)).2,
   (organize_file_classify_before_transfer envFail stFail ["src", "f.mp3"]
      rfl (by decide) (by decide) (Or.inr rfl)).2.2.1,
   (organize_file_classify_before_transfer envFail stFail ["src", "f.mp3"]
      rfl (by decide) (by decide) (Or.inr rfl)).2.2.2⟩

/-- A `copy_album_art` call whose resolved source directory was already
processed returns the state unchanged (lines 253-256). -/
theorem copy_album_art_already (env : Env) (st : OrgState)
    (d dest : FilePath')
    (h : env.resolve d ∈ st.processed_album_art_dirs) :
    copy_album_art env st d dest = st := by
  simp only [copy_album_art]
  rw [if_pos h]

/-- After any `copy_album_art` call the visited set holds exactly the old
entries plus the resolved source directory. -/
theorem copy_album_art_dirs (env : Env) (st : OrgState) (d dest : FilePath') :
    (copy_album_art env st d dest).processed_album_art_dirs =
      if env.resolve d ∈ st.processed_album_art_dirs then
        st.processed_album_art_dirs
      else env.resolve d :: st.processed_album_art_dirs := by
  simp only [copy_album_art]
  by_cases h : env.resolve d ∈ st.processed_album_art_dirs
  · rw [if_pos h, if_pos h]
  · rw [if_neg h, if_neg h]
    split
    · rfl
    · split
      · rfl
      · split
        · rfl
        · split
          · rfl
          · split
            · split <;> rfl
            · split <;> rfl

/-- C6: within one run, `copy_album_art` acts at most once per distinct
resolved source directory — a call whose resolved directory is already in
the visited set returns the state unchanged, every call records its resolved
directory, the visited set only grows, and any later call for a directory
with the same resolved path is the identity — and when the destination album
directory already contains `cover.jpg`, `cover.jpeg` or `cover.png` the
filesystem is left untouched, so an existing cover is never overwritten. -/
theorem copy_album_art_once_no_overwrite (env : Env) (st : OrgState)
    (d dest : FilePath') :
    (env.resolve d ∈ st.processed_album_art_dirs →
      copy_album_art env st d dest = st) ∧
    env.resolve d ∈ (copy_album_art env st d dest).processed_album_art_dirs ∧
    (∀ k ∈ st.processed_album_art_dirs,
      k ∈ (copy_album_art env st d dest).processed_album_art_dirs) ∧
    (∀ d' dest', env.resolve d' = env.resolve d →
      copy_album_art env (copy_album_art env st d dest) d' dest' =
        copy_album_art env st d dest) ∧
    ((∃ ext, ext ∈ [".jpg", ".jpeg", ".png"] ∧
        fsExists st.fs (dest ++ ["cover" ++ ext]) = true) →
      (copy_album_art env st d dest).fs = st.fs) := by
  have hmem : env.resolve d ∈
      (copy_album_art env st d dest).processed_album_art_dirs := by
    rw [copy_album_art_dirs]
    by_cases h : env.resolve d ∈ st.processed_album_art_dirs
    · rw [if_pos h]; exact h
    · rw [if_neg h]; exact List.mem_cons_self _ _
  refine ⟨copy_album_art_already env st d dest, hmem, ?_, ?_, ?_⟩
  · intro k hk
    rw [copy_album_art_dirs]
    by_cases h : env.resolve d ∈ st.processed_album_art_dirs
    · rw [if_pos h]; exact hk
    · rw [if_neg h]; exact List.mem_cons_of_mem _ hk
  · intro d' dest' he
    apply copy_album_art_already
    rw [he]
    exact hmem
  · rintro ⟨ext, hext, hex⟩
    simp only [copy_album_art]
    by_cases h : env.resolve d ∈ st.processed_album_art_dirs
    · rw [if_pos h]
    · rw [if_neg h, if_pos (List.any_eq_true.mpr ⟨ext, hext, hex⟩)]

/-- Witness state with the source directory already in the visited set. -/
def stArtMember : OrgState :=
  { fs := []
    stats := Stats.zero
    processed_album_art_dirs := [["src"]] }

/-- Witness state whose destination album directory already holds a
`cover.jpg`. -/
def stArtCover : OrgState :=
  { fs := [⟨["dest", "A", "cover.jpg"], 7⟩]
    stats := Stats.zero
    processed_album_art_dirs := [] }

/-- Witness for C6 at concrete states: an already-visited directory is a
no-op, the resolved directory is recorded, and an existing cover freezes the
filesystem. -/
theorem copy_album_art_once_no_overwrite_witness :
    copy_album_art envSkip stArtMember ["src"] ["dest", "A"] = stArtMember ∧
    envSkip.resolve ["src"] ∈
      (copy_album_art envSkip stArtCover ["src"]
        ["dest", "A"]).processed_album_art_dirs ∧
    (copy_album_art envSkip stArtCover ["src"] ["dest", "A"]).fs =
      stArtCover.fs :=
  ⟨(copy_album_art_once_no_overwrite envSkip stArtMember ["src"]
      ["dest", "A"]).1 (by decide),
   (copy_album_art_once_no_overwrite envSkip stArtCover ["src"]
      ["dest", "A"]).2.1,
   (copy_album_art_once_no_overwrite envSkip stArtCover ["src"]
      ["dest", "A"]).2.2.2.2 ⟨".jpg", by decide, by decide⟩⟩

end MusicOrganizer
